import Mathlib

/-!
Verification of the AtomicGameEngine core against its specification.

The development shallowly embeds the spatial registry (`CoordinateSystem`),
the persistence snapshot (`CoordinateSystemPersistence`), the spatial query
layer (`CoordinateSystemDML`), the hex coordinate conversions (`HexUtils`),
the A* path planner (`Pathfinding`) and the combat engine (`CombatSystem`).

Modelling conventions:
- Python floats are modelled as rationals; all the arithmetic the claims
  exercise is exact.
- Python dicts are modelled as association lists in insertion order, with
  the standard dict semantics: updates replace the value in place, fresh
  keys are appended at the end, deletion removes the key.
- Python exceptions become `Except EngineError`; the error kinds follow
  the error-handling design of the spec (`KeyError` becomes `notFound`,
  duplicate-id `ValueError` becomes `alreadyExists`, malformed-argument
  `TypeError`/`ValueError` become `invalidArgument`).
- Cartesian points produced by the hex conversions always have the shape
  `(x, b * sqrt 3, 0)` with `x`, `b` rational; such a point is represented
  by the pair `(x, b)`, carrying the irrational factor `sqrt 3` of the
  y-coordinate symbolically, so every formula of the source (all of which
  are linear in that factor) is computed exactly.
-/

namespace AtomicGameEngine

/-- Error kinds of the error-handling design (spec section 7). -/
inductive EngineError where
  | notFound
  | alreadyExists
  | invalidArgument
  | outOfRange
  deriving DecidableEq, Repr

instance {ε α : Type} [DecidableEq ε] [DecidableEq α] : DecidableEq (Except ε α) :=
  fun a b =>
    match a, b with
    | .ok x, .ok y =>
        if h : x = y then isTrue (by rw [h])
        else isFalse (by intro hc; cases hc; exact h rfl)
    | .error e, .error f =>
        if h : e = f then isTrue (by rw [h])
        else isFalse (by intro hc; cases hc; exact h rfl)
    | .ok _, .error _ => isFalse (by intro hc; cases hc)
    | .error _, .ok _ => isFalse (by intro hc; cases hc)

/-- Lookup in an association list: the value stored at the first
occurrence of the key, mirroring a Python dict read. -/
def assocFind {α β : Type} [DecidableEq α] (k : α) : List (α × β) → Option β
  | [] => none
  | (k', v) :: rest => if k' = k then some v else assocFind k rest

/-- Python dict write `d[k] = v`: replace the value at the first occurrence
of the key in place, or append the pair if the key is fresh. -/
def assocUpsert {α β : Type} [DecidableEq α] (k : α) (v : β) :
    List (α × β) → List (α × β)
  | [] => [(k, v)]
  | (k', v') :: rest =>
      if k' = k then (k, v) :: rest else (k', v') :: assocUpsert k v rest

/-- Python dict delete / SQL `DELETE ... WHERE key = ?`: drop the first
occurrence of the key. -/
def assocErase {α β : Type} [DecidableEq α] (k : α) :
    List (α × β) → List (α × β)
  | [] => []
  | (k', v') :: rest =>
      if k' = k then rest else (k', v') :: assocErase k rest

/-- Entity identifiers (`EntityID = str` in `CoordinateSystem.py`). -/
abbrev EntityID := String

/-- Geometry identifiers (`GeometryID = str`). -/
abbrev GeometryID := String

/-- A validated 3D position (`Coordinate3D`), stored after the
tuple-of-three-numbers check of the source. -/
abbrev Coord3 := ℚ × ℚ × ℚ

/-- A raw, unvalidated coordinate argument: a sequence of numbers whose
arity the source checks (`len(position) == 3`). -/
abbrev RawCoord := List ℚ

/-- The arity check of the source: a raw coordinate is accepted exactly
when it has three components. -/
def toTriple : RawCoord → Option Coord3
  | [x, y, z] => some (x, y, z)
  | _ => none

/-- Inverse of `toTriple` on validated data. -/
def tripleToList (c : Coord3) : RawCoord := [c.1, c.2.1, c.2.2]

/-- A static geometry record of `CoordinateSystem._static_geometry`:
either a plane `{type, origin, normal, category}` or a polygon
`{type, vertices, category}`. -/
inductive GeomRecord where
  | plane (origin normal : Coord3) (category : String)
  | polygon (vertices : List Coord3) (category : String)
  deriving DecidableEq, Repr

/-- The category tag of a geometry record (`record["category"]`). -/
def GeomRecord.category : GeomRecord → String
  | .plane _ _ c => c
  | .polygon _ c => c

/-!
Hex coordinate conversions of `HexUtils.py`.

A Cartesian point `(x, y, 0)` handled by these functions always has
`y = b * sqrt 3` with rational `b`; it is represented as the pair
`(x, b)`. The source formulas divide or multiply the y-coordinate by
`sqrt 3` (`math.sqrt(3)`) or by rationals only, so the cofactor `b` is
transformed exactly as the source transforms `y / sqrt 3`. The constant
z-coordinate 0 is dropped.
-/

/-- A hex-plane Cartesian point: `(x, b)` stands for `(x, b * sqrt 3, 0)`. -/
abbrev HexPos := ℚ × ℚ

/-- `HexUtils.hex_to_cartesian(q, r, size)`:
`x = size * 3 / 2 * q`, `y = size * sqrt(3) * (r + q / 2)`.
The y-cofactor is therefore `size * (r + q / 2)`. -/
def hex_to_cartesian (q r : ℤ) (size : ℚ) : HexPos :=
  (size * 3 / 2 * q, size * (r + q / 2))

/-- `HexUtils.cartesian_to_hex(x, y, size)`: fractional axial coordinates
`q = x / (size * 3 / 2)` and `r = (y - q * size * sqrt(3) / 2) / (size * sqrt(3))`
(on the y-cofactor: `r = (b - q * size / 2) / size`), then cube rounding:
round each of `x = q`, `z = -q - r`, `y = -x - z` and recompute the
component with the largest rounding error from the other two. -/
def cartesian_to_hex (p : HexPos) (size : ℚ) : ℤ × ℤ :=
  let q : ℚ := p.1 / (size * 3 / 2)
  let r : ℚ := (p.2 - q * size / 2) / size
  let x : ℚ := q
  let z : ℚ := -q - r
  let y : ℚ := -x - z
  let rx : ℤ := round x
  let ry : ℤ := round y
  let rz : ℤ := round z
  let x_diff : ℚ := |(rx : ℚ) - x|
  let y_diff : ℚ := |(ry : ℚ) - y|
  let z_diff : ℚ := |(rz : ℚ) - z|
  if x_diff > y_diff ∧ x_diff > z_diff then (-ry - rz, ry)
  else if y_diff > z_diff then (rx, -rx - rz)
  else (rx, ry)

/-- `HexUtils.get_hex_vertices(q, r, size)`: the six corners at 60 degree
increments around the cell center. With `cos` in `{1, 1/2, -1/2, -1}` and
`sin` in `{0, sqrt(3)/2, -sqrt(3)/2}` every corner again has the shape
`(x, b * sqrt 3, 0)`; the raw 3D coordinate is emitted with the constant
z-component 0 and the y-cofactor in second position. -/
def hexCorners (q r : ℤ) (size : ℚ) : List Coord3 :=
  let c := hex_to_cartesian q r size
  [(c.1 + size, c.2, 0),
   (c.1 + size / 2, c.2 + size / 2, 0),
   (c.1 - size / 2, c.2 + size / 2, 0),
   (c.1 - size, c.2, 0),
   (c.1 - size / 2, c.2 - size / 2, 0),
   (c.1 + size / 2, c.2 - size / 2, 0)]

/-- The corners as raw coordinate arguments, as passed to
`add_static_polygon` by the terrain generator. -/
def get_hex_vertices (q r : ℤ) (size : ℚ) : List RawCoord :=
  (hexCorners q r size).map tripleToList

/-- The in-memory spatial registry of `CoordinateSystem.py`: entity
positions and static geometry, both insertion-ordered dicts. -/
structure CoordinateSystem where
  entityPositions : List (EntityID × Coord3)
  staticGeometry : List (GeometryID × GeomRecord)
  deriving DecidableEq, Repr

namespace CoordinateSystem

/-- The empty registry built by `CoordinateSystem.__init__`. -/
def init : CoordinateSystem := ⟨[], []⟩

/-- `CoordinateSystem.add_entity`: validate the position as a tuple of
three numbers (`TypeError`, mapped to `invalidArgument`), then
store or overwrite. -/
def add_entity (cs : CoordinateSystem) (entity_id : EntityID)
    (position : RawCoord) : Except EngineError CoordinateSystem :=
  match toTriple position with
  | some p =>
      .ok { cs with entityPositions := assocUpsert entity_id p cs.entityPositions }
  | none => .error .invalidArgument

/-- `CoordinateSystem.remove_entity`: `KeyError` (mapped to `notFound`)
when the id is absent, otherwise delete it. -/
def remove_entity (cs : CoordinateSystem) (entity_id : EntityID) :
    Except EngineError CoordinateSystem :=
  match assocFind entity_id cs.entityPositions with
  | none => .error .notFound
  | some _ =>
      .ok { cs with entityPositions := assocErase entity_id cs.entityPositions }

/-- `CoordinateSystem.get_entity_position`: dict `.get`, no error. -/
def get_entity_position (cs : CoordinateSystem) (entity_id : EntityID) :
    Option Coord3 :=
  assocFind entity_id cs.entityPositions

/-- `CoordinateSystem.get_all_entity_positions`: a copy of the dict. -/
def get_all_entity_positions (cs : CoordinateSystem) :
    List (EntityID × Coord3) :=
  cs.entityPositions

/-- The per-vertex check of `add_static_polygon` (`all(... len(v) == 3 ...)`)
combined with the conversion of every vertex to a validated triple. -/
def validateVertices : List RawCoord → Option (List Coord3)
  | [] => some []
  | v :: rest =>
      match toTriple v, validateVertices rest with
      | some c, some cs => some (c :: cs)
      | _, _ => none

/-- `CoordinateSystem.add_static_polygon`: duplicate id raises
`ValueError` (mapped to `alreadyExists`); fewer than three vertices raises
`ValueError` and a malformed vertex raises `TypeError` (both mapped to
`invalidArgument`); otherwise the polygon record is appended. -/
def add_static_polygon (cs : CoordinateSystem) (geometry_id : GeometryID)
    (vertices : List RawCoord) (category : String) :
    Except EngineError CoordinateSystem :=
  if (assocFind geometry_id cs.staticGeometry).isSome then
    .error .alreadyExists
  else if vertices.length < 3 then
    .error .invalidArgument
  else
    match validateVertices vertices with
    | some vs =>
        .ok { cs with staticGeometry :=
                cs.staticGeometry ++ [(geometry_id, .polygon vs category)] }
    | none => .error .invalidArgument

/-- Modelled from the spec: `CoordinateSystem.add_static_plane` is absent
from the provided sources, although the spec declares it, the test suite
exercises it and `load_coordinate_system` calls it. Per the spec it obeys
the same duplicate and validation rules as `add_static_polygon`:
`alreadyExists` for an id already used by static geometry,
`invalidArgument` for a malformed origin or normal, and on success the
plane record `{type, origin, normal, category}` is stored under the id. -/
def add_static_plane (cs : CoordinateSystem) (geometry_id : GeometryID)
    (origin normal : RawCoord) (category : String) :
    Except EngineError CoordinateSystem :=
  if (assocFind geometry_id cs.staticGeometry).isSome then
    .error .alreadyExists
  else
    match toTriple origin, toTriple normal with
    | some o, some n =>
        .ok { cs with staticGeometry :=
                cs.staticGeometry ++ [(geometry_id, .plane o n category)] }
    | _, _ => .error .invalidArgument

/-- `CoordinateSystem.get_static_geometry`: dict `.get`, no error. -/
def get_static_geometry (cs : CoordinateSystem) (geometry_id : GeometryID) :
    Option GeomRecord :=
  assocFind geometry_id cs.staticGeometry

/-- `CoordinateSystem.list_all_static_geometry`: a copy of the dict. -/
def list_all_static_geometry (cs : CoordinateSystem) :
    List (GeometryID × GeomRecord) :=
  cs.staticGeometry

end CoordinateSystem

/-- Well-formedness of a single geometry record, as guaranteed by its
construction through `add_static_polygon` (at least three vertices) or
`add_static_plane`; part of the data model of the spec. -/
def geomWF : GeomRecord → Prop
  | .polygon vs _ => 3 ≤ vs.length
  | .plane _ _ _ => True

instance (g : GeomRecord) : Decidable (geomWF g) :=
  match g with
  | .polygon vs _ => (inferInstance : Decidable (3 ≤ vs.length))
  | .plane _ _ _ => (inferInstance : Decidable True)

/-- Well-formedness of a registry: dict keys are unique (automatic for
Python dicts) and every polygon has at least three vertices (enforced by
`add_static_polygon`). -/
def CoordinateSystem.WF (cs : CoordinateSystem) : Prop :=
  (cs.entityPositions.map Prod.fst).Nodup ∧
  (cs.staticGeometry.map Prod.fst).Nodup ∧
  ∀ p ∈ cs.staticGeometry, geomWF p.2

instance (cs : CoordinateSystem) : Decidable cs.WF := by
  unfold CoordinateSystem.WF; infer_instance

/-!
Persistence of `CoordinateSystemPersistence.py`.

The durable store is modelled as the pair of its `entities` and `geometry`
tables, each a list of rows in insertion order. The `data` column of the
`geometry` table holds the JSON serialization of
`{"origin": ..., "normal": ..., "vertices": ...}` in which the fields not
belonging to the kind of the record are set to `None`; JSON round-trips
this structure exactly, so it is modelled by `GeomData` directly.
-/

/-- A row of the `entities(id, x, y, z)` table. -/
structure EntityRow where
  id : EntityID
  x : ℚ
  y : ℚ
  z : ℚ
  deriving DecidableEq, Repr

/-- The deserialized `data` column of a `geometry` row. -/
structure GeomData where
  origin : Option Coord3
  normal : Option Coord3
  vertices : Option (List Coord3)
  deriving DecidableEq, Repr

/-- A row of the `geometry(id, type, data, category)` table. -/
structure GeomRow where
  id : GeometryID
  type : String
  data : GeomData
  category : String
  deriving DecidableEq, Repr

/-- The durable tables written by `save_coordinate_system`. -/
abbrev Tables := List EntityRow × List GeomRow

/-- The `entities` row written for one entity. -/
def entityRowOf (p : EntityID × Coord3) : EntityRow :=
  ⟨p.1, p.2.1, p.2.2.1, p.2.2.2⟩

/-- The `geometry` row written for one record: `data_json` holds `origin`
and `normal` for a plane (with `vertices = None`) and `vertices` for a
polygon (with `origin = normal = None`). -/
def geomRowOf (p : GeometryID × GeomRecord) : GeomRow :=
  match p.2 with
  | .plane o n cat => ⟨p.1, "plane", ⟨some o, some n, none⟩, cat⟩
  | .polygon vs cat => ⟨p.1, "polygon", ⟨none, none, some vs⟩, cat⟩

/-- `CoordinateSystemPersistence.save_coordinate_system`: clear both
tables, then insert one row per entity (iterating
`get_all_entity_positions().items()`) and one per geometry record
(iterating `list_all_static_geometry().items()`). -/
def save_coordinate_system (cs : CoordinateSystem) : Tables :=
  (cs.get_all_entity_positions.map entityRowOf,
   cs.list_all_static_geometry.map geomRowOf)

/-- The entity loop of `load_coordinate_system`: `cs.add_entity(row...)`
for every row, propagating exceptions. -/
def loadEntities : CoordinateSystem → List EntityRow → Except EngineError CoordinateSystem
  | cs, [] => .ok cs
  | cs, row :: rest =>
      match cs.add_entity row.id [row.x, row.y, row.z] with
      | .ok cs' => loadEntities cs' rest
      | .error e => .error e

/-- The geometry loop of `load_coordinate_system`: planes are re-added via
`add_static_plane`, polygons via `add_static_polygon`, any other `type`
value is skipped; a `None` field where a value is required is the
`TypeError` of `tuple(None)` (mapped to `invalidArgument`). -/
def loadGeometry : CoordinateSystem → List GeomRow → Except EngineError CoordinateSystem
  | cs, [] => .ok cs
  | cs, row :: rest =>
      let step : Except EngineError CoordinateSystem :=
        if row.type = "plane" then
          match row.data.origin, row.data.normal with
          | some o, some n =>
              cs.add_static_plane row.id (tripleToList o) (tripleToList n) row.category
          | _, _ => .error .invalidArgument
        else if row.type = "polygon" then
          match row.data.vertices with
          | some vs =>
              cs.add_static_polygon row.id (vs.map tripleToList) row.category
          | none => .error .invalidArgument
        else .ok cs
      match step with
      | .ok cs' => loadGeometry cs' rest
      | .error e => .error e

/-- `CoordinateSystemPersistence.load_coordinate_system`: rebuild a fresh
registry from the two tables, entities first. -/
def load_coordinate_system (tables : Tables) : Except EngineError CoordinateSystem :=
  match loadEntities .init tables.1 with
  | .ok cs => loadGeometry cs tables.2
  | .error e => .error e

/-!
Spatial queries of `CoordinateSystemDML.py`. The queries run against the
persisted snapshot (the `entities` table), not the in-memory registry.
-/

/-- SQL `LIKE` matching on the pattern built by the source
(`f"{type_prefix}%"`): in a SQLite `LIKE` pattern an underscore matches
any single character, a percent sign matches any sequence, and ordinary
characters compare ASCII-case-insensitively. -/
def sqlLike : List Char → List Char → Bool
  | [], [] => true
  | [], _ :: _ => false
  | '%' :: p, [] => sqlLike p []
  | '%' :: p, c :: s => sqlLike p (c :: s) || sqlLike ('%' :: p) s
  | '_' :: _, [] => false
  | '_' :: p, _ :: s => sqlLike p s
  | _ :: _, [] => false
  | c :: p, c' :: s => c.toLower = c'.toLower && sqlLike p s
  termination_by p s => p.length + s.length
  decreasing_by all_goals simp_wf <;> omega

/-- Python `id.split("_")[0]`: the characters before the first
underscore. -/
def firstSegment (s : String) : String :=
  ⟨s.data.takeWhile (fun c => c ≠ '_')⟩

/-- Python `str.startswith`: the second argument read as a character
list is a prefix of the first. -/
def beginsWith : List Char → List Char → Bool
  | _, [] => true
  | [], _ :: _ => false
  | c :: s, p :: ps => p = c && beginsWith s ps

/-- `CoordinateSystemDML.count_entities` with a type prefix: select the
ids matching `LIKE "{tp}%"`, then group each id under its first
underscore-delimited segment (the whole id when it has no underscore) and
count, keeping only group keys that start with the prefix. -/
def count_entities (tp : String) (ids : List String) : List (String × ℕ) :=
  let matched := ids.filter fun id => sqlLike (tp.data ++ ['%']) id.data
  matched.foldl
    (fun counts id =>
      let seg := if '_' ∈ id.data then firstSegment id else id
      if beginsWith seg.data tp.data then
        assocUpsert seg ((assocFind seg counts).getD 0 + 1) counts
      else counts)
    []

/-- Squared Euclidean distance. The source compares distances computed
with `math.sqrt`; both comparisons of `find_nearest_entity` (strictly
closer than the best so far, within `max_distance`) are equivalent to the
corresponding comparisons of the squares, which are exact over ℚ. -/
def sqDist (p q : Coord3) : ℚ :=
  (p.1 - q.1) ^ 2 + (p.2.1 - q.2.1) ^ 2 + (p.2.2 - q.2.2) ^ 2

/-- `CoordinateSystemDML.find_nearest_entity`: linear scan of the
`entities` table in row order, keeping the strictly closest row that also
lies within `max_distance` (a row at distance equal to the current
minimum does not replace it). The distance-within-range test
`dist <= max_distance` is rendered as
`0 <= max_distance and dist^2 <= max_distance^2`. -/
def find_nearest_entity (rows : List EntityRow) (point : Coord3)
    (tp : Option String) (max_distance : ℚ) : Option (EntityID × Coord3) :=
  let selected := match tp with
    | none => rows
    | some t => rows.filter fun row => sqlLike (t.data ++ ['%']) row.id.data
  let best := selected.foldl
    (fun best row =>
      let pos : Coord3 := (row.x, row.y, row.z)
      let d2 := sqDist point pos
      let closer : Bool := match best with
        | none => true
        | some (_, _, bd2) => decide (d2 < bd2)
      if closer && (decide (0 ≤ max_distance) && decide (d2 ≤ max_distance ^ 2)) then
        some (row.id, pos, d2)
      else best)
    none
  best.map fun b => (b.1, b.2.1)

/-!
Combat engine of `CombatSystem.py`. The state carries the in-memory
registry, the `combat` table (an association list in row order) and the
persisted snapshot tables written by `save_coordinate_system`.
-/

/-- A row of the `combat` table. -/
structure CombatRecord where
  health : ℚ
  attack_power : ℚ
  defense : ℚ
  status_effects : List (String × ℤ)
  deriving DecidableEq, Repr

/-- The full combat-relevant state: registry, combat table, snapshot. -/
structure CombatState where
  cs : CoordinateSystem
  combat : List (EntityID × CombatRecord)
  snapshot : Tables
  deriving DecidableEq, Repr

namespace CombatSystem

/-- `CombatSystem.get_combat_attributes`: the combat row, or nothing. -/
def get_combat_attributes (s : CombatState) (entity_id : EntityID) :
    Option CombatRecord :=
  assocFind entity_id s.combat

/-- `CombatSystem.update_combat_attributes`: `KeyError` (mapped to
`notFound`) when the entity has no position in the registry; otherwise
merge the given fields into the existing row (or the defaults
`100/20/10/{}` for a fresh row) and `INSERT OR REPLACE` it. -/
def update_combat_attributes (s : CombatState) (entity_id : EntityID)
    (health attack_power defense : Option ℚ)
    (status_effects : Option (List (String × ℤ))) :
    Except EngineError CombatState :=
  if (s.cs.get_entity_position entity_id).isNone then .error .notFound
  else
    let merged : CombatRecord :=
      match assocFind entity_id s.combat with
      | some cur =>
          ⟨health.getD cur.health, attack_power.getD cur.attack_power,
           defense.getD cur.defense, status_effects.getD cur.status_effects⟩
      | none =>
          ⟨health.getD 100, attack_power.getD 20,
           defense.getD 10, status_effects.getD []⟩
    .ok { s with combat := assocUpsert entity_id merged s.combat }

/-- `CombatSystem.find_targets_in_range`: negative range raises
`ValueError` (mapped to `invalidArgument`); an attacker without a registry
position raises `KeyError` (mapped to `notFound`); otherwise the nearest
entity of the snapshot within range is returned as a singleton list unless
it is the attacker itself, in which case the list is empty. -/
def find_targets_in_range (s : CombatState) (attacker_id : EntityID)
    (attack_range : ℚ) : Except EngineError (List (EntityID × Coord3)) :=
  if attack_range < 0 then .error .invalidArgument
  else
    match s.cs.get_entity_position attacker_id with
    | none => .error .notFound
    | some attacker_pos =>
        match find_nearest_entity s.snapshot.1 attacker_pos none attack_range with
        | some (id, pos) =>
            if id ≠ attacker_id then .ok [(id, pos)] else .ok []
        | none => .ok []

/-- `CombatSystem.resolve_combat`: missing combat attributes raise
`ValueError` (a missing record, mapped to `notFound`); a stunned attacker
returns false without acting; otherwise damage
`max(1.0, attack_power - defense * 0.5)` is applied to the health of the
defender, floored at 0; on death the defender is removed from the
registry, its combat row deleted and the registry persisted. -/
def resolve_combat (s : CombatState) (attacker_id defender_id : EntityID) :
    Except EngineError (Bool × CombatState) :=
  match assocFind attacker_id s.combat, assocFind defender_id s.combat with
  | some attacker_attrs, some defender_attrs =>
      if 0 < (assocFind "stunned" attacker_attrs.status_effects).getD 0 then
        .ok (false, s)
      else
        let damage := max 1 (attacker_attrs.attack_power - defender_attrs.defense * 0.5)
        let new_health := max 0 (defender_attrs.health - damage)
        match update_combat_attributes s defender_id (some new_health) none none none with
        | .error e => .error e
        | .ok s1 =>
            if new_health ≤ 0 then
              match s1.cs.remove_entity defender_id with
              | .error e => .error e
              | .ok cs' =>
                  .ok (true, { cs := cs',
                               combat := assocErase defender_id s1.combat,
                               snapshot := save_coordinate_system cs' })
            else .ok (false, s1)
  | _, _ => .error .notFound

/-- The loop body of `update_status_effects` over the effect map, in
iteration order: decrement the duration, keep the effect when the new
duration is positive, and let a poisoned effect deal 5.0 damage when the
entity is still alive; death removes the entity, deletes its combat row,
persists the registry and abandons the remaining effects (early exit,
rendered as the left summand). -/
def statusFold (s : CombatState) (entity_id : EntityID) :
    List (String × ℤ) → ℚ → List (String × ℤ) →
    Except EngineError (Sum CombatState (ℚ × List (String × ℤ)))
  | [], health, acc => .ok (.inr (health, acc))
  | (effect, duration) :: rest, health, acc =>
      let acc' := if 0 < duration - 1 then assocUpsert effect (duration - 1) acc else acc
      if effect = "poisoned" ∧ 0 < health then
        let new_health := max 0 (health - 5)
        if new_health ≤ 0 then
          match s.cs.remove_entity entity_id with
          | .error e => .error e
          | .ok cs' =>
              .ok (.inl { cs := cs',
                          combat := assocErase entity_id s.combat,
                          snapshot := save_coordinate_system cs' })
        else statusFold s entity_id rest new_health acc'
      else statusFold s entity_id rest health acc'

/-- `CombatSystem.update_status_effects`: silently return when the entity
has no combat row; otherwise run the effect loop and, unless the entity
died mid-loop, write back the surviving health and pruned effect map. -/
def update_status_effects (s : CombatState) (entity_id : EntityID) :
    Except EngineError CombatState :=
  match assocFind entity_id s.combat with
  | none => .ok s
  | some attrs =>
      match statusFold s entity_id attrs.status_effects attrs.health [] with
      | .error e => .error e
      | .ok (.inl sFinal) => .ok sFinal
      | .ok (.inr (health, new_effects)) =>
          update_combat_attributes s entity_id (some health) none none (some new_effects)

end CombatSystem

/-- A registry holding an attacker at the origin and a second entity at
distance `sqrt 2` from it. -/
def bugRegistry : CoordinateSystem :=
  ⟨[("unit_1", (0, 0, 0)), ("unit_2", (1, 1, 0))], []⟩

/-- The combat state for `bugRegistry` with a freshly saved snapshot. -/
def bugState : CombatState :=
  ⟨bugRegistry, [], save_coordinate_system bugRegistry⟩

/-- A registry with two adjacent duelling units. -/
def duelRegistry : CoordinateSystem :=
  ⟨[("unit_1", (0, 0, 0)), ("unit_2", (1, 0, 0))], []⟩

/-- Two default combatants (`100/20/10`, no status effects). -/
def duelState : CombatState :=
  ⟨duelRegistry,
   [("unit_1", ⟨100, 20, 10, []⟩), ("unit_2", ⟨100, 20, 10, []⟩)],
   save_coordinate_system duelRegistry⟩

/-- The duel state with the attacker stunned for two turns. -/
def stunnedState : CombatState :=
  ⟨duelRegistry,
   [("unit_1", ⟨100, 20, 10, [("stunned", 2)]⟩), ("unit_2", ⟨100, 20, 10, []⟩)],
   save_coordinate_system duelRegistry⟩

/-- A single entity at health 3 carrying a poisoned effect of duration 1. -/
def poisonedState : CombatState :=
  ⟨⟨[("unit_1", (0, 0, 0))], []⟩,
   [("unit_1", ⟨3, 20, 10, [("poisoned", 1)]⟩)],
   save_coordinate_system ⟨[("unit_1", (0, 0, 0))], []⟩⟩

/-!
Path planning of `Pathfinding.py`. The source reads the global hex-size
constant `Config.HEX_SIZE`; `Config.py` is not among the provided sources,
so the size is threaded as an explicit parameter and the concrete runs
instantiate it at the modelled constant below. The A* loop
(`while open_set`) is embedded with an explicit fuel parameter; exhausted
fuel yields `Option.none` while a terminated run yields the path.
-/

/-- Modelled from the spec: `Config.py` (the configuration constants,
among them `Config.HEX_SIZE`) is absent from the provided sources; the
spec only requires a fixed positive hex-size constant. Its concrete value
does not matter for the pathfinding claims; 40 is an arbitrary positive
instance. -/
def Config.HEX_SIZE : ℚ := 40

/-- The geometry id `f"hex_{q}_{r}"` naming the cell polygon. -/
def hexId (q r : ℤ) : String :=
  "hex_" ++ toString q ++ "_" ++ toString r

/-- The movement costs of `TerrainType.DEFAULT_TYPES` (the fallback
configuration defined in the source; at runtime `TYPES` is loaded from
`terrain_config.json` and falls back to this table). An unknown category
is a `KeyError` of `TYPES[...]`, hence nothing here. -/
def TerrainType.move_cost (category : String) : Option ℚ :=
  if category = "ocean" then some 2
  else if category = "plain" then some 1
  else if category = "hill" then some 2
  else if category = "mountain" then some 4
  else if category = "stream" then some 3
  else if category = "forest" then some 3
  else if category = "desert" then some 2
  else if category = "swamp" then some 4
  else none

/-- `Pathfinding.hex_distance`: both points are snapped to their hex
cells and the cube (Chebyshev) distance
`max(|dq|, |dr|, |d(q+r)|)` is taken; it is integer-valued. -/
def hex_distance (a b : HexPos) (size : ℚ) : ℤ :=
  let c1 := cartesian_to_hex a size
  let c2 := cartesian_to_hex b size
  max |c1.1 - c2.1| (max |c1.2 - c2.2| |c1.1 + c1.2 - (c2.1 + c2.2)|)

/-- `Pathfinding.get_neighbors`: the six axial neighbors of the cell of
`pos`, kept when their polygon `hex_{q}_{r}` is registered, returned as
Cartesian centers. -/
def get_neighbors (pos : HexPos) (cs : CoordinateSystem) (size : ℚ) :
    List HexPos :=
  let c := cartesian_to_hex pos size
  let q := c.1
  let r := c.2
  ([(q + 1, r), (q - 1, r), (q, r + 1), (q, r - 1),
    (q + 1, r - 1), (q - 1, r + 1)].filter
      (fun n => (cs.get_static_geometry (hexId n.1 n.2)).isSome)).map
    (fun n => hex_to_cartesian n.1 n.2 size)

/-- An entry of the `open_set` list: an f-score paired with a position
(the z-coordinate, constantly 0, is dropped as everywhere else). -/
abbrev OpenEntry := ℚ × HexPos

/-- Python tuple comparison `(f1, (x1, y1, 0)) <= (f2, (x2, y2, 0))`:
lexicographic on the f-score, then on the position. Comparing the
y-cofactors is equivalent to comparing the y-coordinates because
`sqrt 3 > 0`. -/
def entryLE (a b : OpenEntry) : Bool :=
  if a.1 < b.1 then true
  else if b.1 < a.1 then false
  else if a.2.1 < b.2.1 then true
  else if b.2.1 < a.2.1 then false
  else decide (a.2.2 ≤ b.2.2)

/-- Sorted insertion of one entry. -/
def insertEntry (x : OpenEntry) : List OpenEntry → List OpenEntry
  | [] => [x]
  | y :: ys => if entryLE x y then x :: y :: ys else y :: insertEntry x ys

/-- `open_set.sort()`: Python sorts the list ascending by tuple
comparison. Distinct entries are totally ordered by `entryLE` (two open
entries never coincide: a reinserted node strictly improves its g-score
and hence its f-score), so every correct sort produces the same list;
the embedding uses a structurally recursive insertion sort. -/
def sortEntries : List OpenEntry → List OpenEntry
  | [] => []
  | x :: xs => insertEntry x (sortEntries xs)

/-- The path reconstruction loop
(`while current in came_from: ...` followed by `path.append(start)` and
the reversal). The fuel is called with `came_from.length + 1`, enough for
every chain without repeated keys; positive move costs make a cyclic
`came_from` impossible in a run of the algorithm. -/
def reconstructPath (came_from : List (HexPos × HexPos)) (start : HexPos) :
    ℕ → HexPos → List HexPos → List HexPos
  | 0, _, path => (path ++ [start]).reverse
  | fuel + 1, current, path =>
      match assocFind current came_from with
      | some prev => reconstructPath came_from start fuel prev (path ++ [current])
      | none => (path ++ [start]).reverse

/-- The `for neighbor in get_neighbors(...)` body of the A* loop: look up
the terrain of the neighbor cell (always registered, since
`get_neighbors` filtered on that) and its movement cost (`KeyError` on an
unknown category); relax the neighbor when it is new or strictly
improved, appending it to the open list and re-sorting. The scores are
held in association lists keyed by position; `g_score[current]` is a
plain read that always finds its key in a run of the algorithm, rendered
with the default 0. -/
def expandNeighbors (cs : CoordinateSystem) (size : ℚ) (goal current : HexPos) :
    List HexPos →
    List OpenEntry × List (HexPos × HexPos) × List (HexPos × ℚ) × List (HexPos × ℚ) →
    Except EngineError
      (List OpenEntry × List (HexPos × HexPos) × List (HexPos × ℚ) × List (HexPos × ℚ))
  | [], st => .ok st
  | neighbor :: rest, (open_set, came_from, g_score, f_score) =>
      let c := cartesian_to_hex neighbor size
      match cs.get_static_geometry (hexId c.1 c.2) with
      | none =>
          expandNeighbors cs size goal current rest
            (open_set, came_from, g_score, f_score)
      | some terrain =>
          match TerrainType.move_cost terrain.category with
          | none => .error .notFound
          | some move_cost =>
              let tentative_g := (assocFind current g_score).getD 0 + move_cost
              let proceed : Bool :=
                match assocFind neighbor g_score with
                | none => true
                | some g => decide (tentative_g < g)
              if proceed then
                let fval := tentative_g + (hex_distance neighbor goal size : ℚ)
                expandNeighbors cs size goal current rest
                  (sortEntries (open_set ++ [(fval, neighbor)]),
                   assocUpsert neighbor current came_from,
                   assocUpsert neighbor tentative_g g_score,
                   assocUpsert neighbor fval f_score)
              else
                expandNeighbors cs size goal current rest
                  (open_set, came_from, g_score, f_score)

/-- The `while open_set` loop of `Pathfinding.a_star`: pop the head of
the sorted open list; inside hex distance 1 of the goal reconstruct and
return the path; otherwise relax the neighbors and continue. An emptied
open list returns the empty path. -/
def aStarLoop (cs : CoordinateSystem) (size : ℚ) (goal start : HexPos) :
    ℕ → List OpenEntry → List (HexPos × HexPos) → List (HexPos × ℚ) →
    List (HexPos × ℚ) → Except EngineError (Option (List HexPos))
  | 0, _, _, _, _ => .ok none
  | fuel + 1, open_set, came_from, g_score, f_score =>
      match open_set with
      | [] => .ok (some [])
      | (_, current) :: rest =>
          if hex_distance current goal size < 1 then
            .ok (some (reconstructPath came_from start
              (came_from.length + 1) current []))
          else
            match expandNeighbors cs size goal current
                (get_neighbors current cs size)
                (rest, came_from, g_score, f_score) with
            | .error e => .error e
            | .ok (open', came_from', g_score', f_score') =>
                aStarLoop cs size goal start fuel open' came_from' g_score' f_score'

/-- `Pathfinding.a_star(start, goal, cs, dml)` with explicit fuel:
`open_set = [(0, start)]`, `g_score = {start: 0}`,
`f_score = {start: hex_distance(start, goal)}`. -/
def a_star (fuel : ℕ) (start goal : HexPos) (cs : CoordinateSystem)
    (size : ℚ) : Except EngineError (Option (List HexPos)) :=
  aStarLoop cs size goal start fuel [(0, start)] [] [(start, 0)]
    [(start, (hex_distance start goal size : ℚ))]

/-- One traversal step: the second position is among the registered
neighbors of the first. -/
def NeighborStep (cs : CoordinateSystem) (size : ℚ) (a b : HexPos) : Prop :=
  b ∈ get_neighbors a cs size

/-- Whether an A* outcome is a non-empty path. -/
def isNonemptyPath : Except EngineError (Option (List HexPos)) → Bool
  | .ok (some (_ :: _)) => true
  | _ => false

/-- The accumulated step cost of a path: the sum, over each step, of the
movement cost of the destination cell. -/
def pathCost (cs : CoordinateSystem) (size : ℚ) : List HexPos → Option ℚ
  | _ :: b :: rest =>
      let c := cartesian_to_hex b size
      match cs.get_static_geometry (hexId c.1 c.2) with
      | none => none
      | some terrain =>
          match TerrainType.move_cost terrain.category, pathCost cs size (b :: rest) with
          | some mc, some tail => some (mc + tail)
          | _, _ => none
  | _ => some 0

/-- A map holding a single row of plain cells, axial (0,0) to (3,0). -/
def stripMap : CoordinateSystem :=
  ⟨[],
   [(hexId 0 0, .polygon (hexCorners 0 0 Config.HEX_SIZE) "plain"),
    (hexId 1 0, .polygon (hexCorners 1 0 Config.HEX_SIZE) "plain"),
    (hexId 2 0, .polygon (hexCorners 2 0 Config.HEX_SIZE) "plain"),
    (hexId 3 0, .polygon (hexCorners 3 0 Config.HEX_SIZE) "plain")]⟩

/-- A concrete registry holding two entities, a plane and a polygon. -/
def sampleRegistry : CoordinateSystem :=
  ⟨[("unit_1", (1, 2, 3)), ("city_0", (4, 5, 6))],
   [("ground", .plane (0, 0, 0) (0, 0, 1) "ground_plane"),
    ("wall1", .polygon [(0, 0, 0), (1, 0, 0), (0, 1, 0)] "wall")]⟩

/-- Looking up a key that occurs nowhere in an association list yields
nothing. -/
theorem assocFind_fresh {α β : Type} [DecidableEq α] (k : α)
    (l : List (α × β)) (h : k ∉ l.map Prod.fst) : assocFind k l = none := by
  induction l with
  | nil => rfl
  | cons p rest ih =>
      simp only [List.map_cons, List.mem_cons] at h
      push_neg at h
      simp only [assocFind, if_neg (Ne.symm h.1)]
      exact ih h.2

/-- Writing a fresh key appends the pair at the end of the list. -/
theorem assocUpsert_fresh {α β : Type} [DecidableEq α] (k : α) (v : β)
    (l : List (α × β)) (h : k ∉ l.map Prod.fst) :
    assocUpsert k v l = l ++ [(k, v)] := by
  induction l with
  | nil => rfl
  | cons p rest ih =>
      simp only [List.map_cons, List.mem_cons] at h
      push_neg at h
      simp only [assocUpsert, if_neg (Ne.symm h.1), List.cons_append]
      rw [ih h.2]

/-- Validation is the identity on serialized validated coordinates. -/
theorem toTriple_tripleToList (c : Coord3) : toTriple (tripleToList c) = some c := rfl

/-- Vertex validation is the identity on serialized validated vertices. -/
theorem validateVertices_map (vs : List Coord3) :
    CoordinateSystem.validateVertices (vs.map tripleToList) = some vs := by
  induction vs with
  | nil => rfl
  | cons v rest ih =>
      simp only [List.map_cons, CoordinateSystem.validateVertices, ih,
        toTriple_tripleToList]

/-- Replaying the saved entity rows on top of a registry appends exactly
the saved entity list, provided no key collides. -/
theorem loadEntities_append (L : List (EntityID × Coord3)) :
    ∀ cs : CoordinateSystem,
      (cs.entityPositions.map Prod.fst ++ L.map Prod.fst).Nodup →
      loadEntities cs (L.map entityRowOf) =
        .ok { cs with entityPositions := cs.entityPositions ++ L } := by
  induction L with
  | nil => intro cs _; simp [loadEntities]
  | cons p rest ih =>
      intro cs h
      obtain ⟨k, v⟩ := p
      have hfresh : k ∉ cs.entityPositions.map Prod.fst := by
        rw [List.nodup_append] at h
        exact fun hk => h.2.2 hk (by simp)
      have hstep : cs.add_entity k [v.1, v.2.1, v.2.2] =
          .ok { cs with entityPositions := cs.entityPositions ++ [(k, v)] } := by
        simp only [CoordinateSystem.add_entity, toTriple]
        rw [assocUpsert_fresh k v _ hfresh]
      simp only [List.map_cons, entityRowOf, loadEntities, hstep]
      have h' : (({ cs with entityPositions := cs.entityPositions ++ [(k, v)]} :
          CoordinateSystem).entityPositions.map Prod.fst ++ rest.map Prod.fst).Nodup := by
        simp only [List.map_append, List.map_cons, List.map_nil, List.append_assoc,
          List.singleton_append]
        simpa using h
      rw [ih _ h']
      simp

/-- Replaying the saved geometry rows on top of a registry appends exactly
the saved geometry list, provided no key collides and every polygon is
well formed. -/
theorem loadGeometry_append (G : List (GeometryID × GeomRecord)) :
    ∀ cs : CoordinateSystem,
      (cs.staticGeometry.map Prod.fst ++ G.map Prod.fst).Nodup →
      (∀ p ∈ G, geomWF p.2) →
      loadGeometry cs (G.map geomRowOf) =
        .ok { cs with staticGeometry := cs.staticGeometry ++ G } := by
  induction G with
  | nil => intro cs _ _; simp [loadGeometry]
  | cons p rest ih =>
      intro cs h hwf
      obtain ⟨k, g⟩ := p
      have hfresh : k ∉ cs.staticGeometry.map Prod.fst := by
        rw [List.nodup_append] at h
        exact fun hk => h.2.2 hk (by simp)
      have hfind : assocFind k cs.staticGeometry = none := assocFind_fresh k _ hfresh
      have h' : (({ cs with staticGeometry := cs.staticGeometry ++ [(k, g)]} :
          CoordinateSystem).staticGeometry.map Prod.fst ++ rest.map Prod.fst).Nodup := by
        simp only [List.map_append, List.map_cons, List.map_nil, List.append_assoc,
          List.singleton_append]
        simpa using h
      have hwf' : ∀ q ∈ rest, geomWF q.2 := fun q hq => hwf q (by simp [hq])
      cases g with
      | plane o n cat =>
          have hstep : cs.add_static_plane k (tripleToList o) (tripleToList n) cat =
              .ok { cs with staticGeometry := cs.staticGeometry ++ [(k, .plane o n cat)] } := by
            simp only [CoordinateSystem.add_static_plane, hfind, Option.isSome_none,
              Bool.false_eq_true, if_false, toTriple_tripleToList]
          simp only [List.map_cons, geomRowOf, loadGeometry, hstep, String.reduceEq,
            reduceIte, if_pos rfl]
          rw [ih _ h' hwf']
          simp
      | polygon vs cat =>
          have hlen : 3 ≤ vs.length := hwf (k, .polygon vs cat) (by simp)
          have hstep : cs.add_static_polygon k (vs.map tripleToList) cat =
              .ok { cs with staticGeometry := cs.staticGeometry ++ [(k, .polygon vs cat)] } := by
            simp only [CoordinateSystem.add_static_polygon, hfind, Option.isSome_none,
              Bool.false_eq_true, if_false, List.length_map, validateVertices_map]
            rw [if_neg (by omega)]
          simp only [List.map_cons, geomRowOf, loadGeometry, hstep, String.reduceEq,
            reduceIte]
          rw [ih _ h' hwf']
          simp

/-- C6: for every well-formed registry (unique ids, polygons with at least
three vertices), saving and loading reproduces the registry exactly, in
particular with equal entity and geometry sets. -/
theorem c6_save_load_round_trip (cs : CoordinateSystem) (h : cs.WF) :
    load_coordinate_system (save_coordinate_system cs) = .ok cs := by
  obtain ⟨hent, hgeo, hwf⟩ := h
  have h1 : loadEntities .init (cs.entityPositions.map entityRowOf) =
      .ok (⟨cs.entityPositions, []⟩ : CoordinateSystem) := by
    have h0 := loadEntities_append cs.entityPositions .init
      (by simpa [CoordinateSystem.init] using hent)
    simpa [CoordinateSystem.init] using h0
  have h2 : loadGeometry ⟨cs.entityPositions, []⟩ (cs.staticGeometry.map geomRowOf) =
      .ok cs := by
    have h0 := loadGeometry_append cs.staticGeometry ⟨cs.entityPositions, []⟩
      (by simpa using hgeo) hwf
    simpa using h0
  simp only [load_coordinate_system, save_coordinate_system,
    CoordinateSystem.get_all_entity_positions,
    CoordinateSystem.list_all_static_geometry, h1]
  exact h2


/-- Witness for C6 at a concrete registry. -/
theorem c6_save_load_round_trip_witness :
    sampleRegistry.WF ∧
      load_coordinate_system (save_coordinate_system sampleRegistry) = .ok sampleRegistry :=
  ⟨by decide, c6_save_load_round_trip sampleRegistry (by decide)⟩

/-- Appending a fresh key at the end makes it retrievable. -/
theorem assocFind_append_self {α β : Type} [DecidableEq α] (k : α) (v : β)
    (l : List (α × β)) (h : assocFind k l = none) :
    assocFind k (l ++ [(k, v)]) = some v := by
  induction l with
  | nil => simp [assocFind]
  | cons p rest ih =>
      simp only [assocFind] at h ⊢
      by_cases hpk : p.1 = k
      · rw [if_pos hpk] at h; cases h
      · rw [if_neg hpk] at h ⊢
        exact ih h

/-- C7: `add_static_plane` follows the duplicate and validation rules of
`add_static_polygon`: an id already used by static geometry fails with
`alreadyExists`; a malformed origin or normal (not a 3-tuple of numbers)
on a fresh id fails with `invalidArgument`; on success the plane record is
retrievable via `get_static_geometry`. -/
theorem c7_add_static_plane_rules (cs : CoordinateSystem) (gid : GeometryID)
    (origin normal : RawCoord) (category : String) :
    ((cs.get_static_geometry gid).isSome = true →
      cs.add_static_plane gid origin normal category = .error .alreadyExists) ∧
    ((cs.get_static_geometry gid).isSome = false →
      (toTriple origin = none ∨ toTriple normal = none) →
      cs.add_static_plane gid origin normal category = .error .invalidArgument) ∧
    ((cs.get_static_geometry gid).isSome = false →
      ∀ o n : Coord3, toTriple origin = some o → toTriple normal = some n →
        ∃ cs' : CoordinateSystem,
          cs.add_static_plane gid origin normal category = .ok cs' ∧
          cs'.get_static_geometry gid = some (.plane o n category)) := by
  refine ⟨fun hdup => ?_, fun hdup hmal => ?_, fun hdup o n ho hn => ?_⟩
  · simp only [CoordinateSystem.add_static_plane,
      CoordinateSystem.get_static_geometry] at *
    rw [if_pos hdup]
  · simp only [CoordinateSystem.add_static_plane,
      CoordinateSystem.get_static_geometry] at *
    rw [if_neg (by simp [hdup])]
    rcases hmal with hmal | hmal
    · rw [hmal]
    · rw [hmal]
      cases h2 : toTriple origin <;> rfl
  · have hfind : assocFind gid cs.staticGeometry = none := by
      have := hdup
      simp only [CoordinateSystem.get_static_geometry] at this
      cases h : assocFind gid cs.staticGeometry with
      | none => rfl
      | some g => rw [h] at this; cases this
    simp only [CoordinateSystem.add_static_plane,
      CoordinateSystem.get_static_geometry] at *
    rw [if_neg (by simp [hdup]), ho, hn]
    exact ⟨_, rfl, assocFind_append_self gid _ _ hfind⟩

/-- Witness for C7 at concrete inputs: duplicate id, malformed origin, and
a successful insertion. -/
theorem c7_add_static_plane_rules_witness :
    ((sampleRegistry.get_static_geometry "ground").isSome = true ∧
      sampleRegistry.add_static_plane "ground" [1, 1, 1] [0, 1, 0] "generic_plane" =
        .error .alreadyExists) ∧
    ((sampleRegistry.get_static_geometry "new_plane").isSome = false ∧
      sampleRegistry.add_static_plane "new_plane" [1, 2] [0, 1, 0] "generic_plane" =
        .error .invalidArgument) ∧
    ((sampleRegistry.get_static_geometry "roof").isSome = false ∧
      ∃ cs' : CoordinateSystem,
        sampleRegistry.add_static_plane "roof" [0, 0, 9] [0, 0, 1] "roof_plane" = .ok cs' ∧
        cs'.get_static_geometry "roof" = some (.plane (0, 0, 9) (0, 0, 1) "roof_plane")) :=
  ⟨⟨by decide,
    (c7_add_static_plane_rules sampleRegistry "ground" [1, 1, 1] [0, 1, 0]
      "generic_plane").1 (by decide)⟩,
   ⟨by decide,
    (c7_add_static_plane_rules sampleRegistry "new_plane" [1, 2] [0, 1, 0]
      "generic_plane").2.1 (by decide) (Or.inl rfl)⟩,
   ⟨by decide,
    (c7_add_static_plane_rules sampleRegistry "roof" [0, 0, 9] [0, 0, 1]
      "roof_plane").2.2 (by decide) (0, 0, 9) (0, 0, 1) rfl rfl⟩⟩


/-- C5: for all integer axial coordinates and every positive hex size,
`cartesian_to_hex` maps the Cartesian center produced by
`hex_to_cartesian(q, r, size)` back to exactly `(q, r)`: the cube
rounding snaps a cell center to its own cell. -/
theorem c5_hex_round_trip (q r : ℤ) (size : ℚ) (hsize : 0 < size) :
    cartesian_to_hex (hex_to_cartesian q r size) size = (q, r) := by
  have hs : size ≠ 0 := ne_of_gt hsize
  have hq : (size * 3 / 2 * (q : ℚ)) / (size * 3 / 2) = (q : ℚ) := by
    field_simp
  have hr : (size * ((r : ℚ) + (q : ℚ) / 2) - (q : ℚ) * size / 2) / size = (r : ℚ) := by
    field_simp; ring
  simp only [cartesian_to_hex, hex_to_cartesian, hq, hr]
  have hy : -(q : ℚ) - (-(q : ℚ) - (r : ℚ)) = (r : ℚ) := by ring
  have hz : round (-(q : ℚ) - (r : ℚ)) = -q - r := by
    have h : -(q : ℚ) - (r : ℚ) = ((-q - r : ℤ) : ℚ) := by push_cast; ring
    rw [h, round_intCast]
  rw [hy, hz]
  simp only [round_intCast]
  have e3 : |((-q - r : ℤ) : ℚ) - (-(q : ℚ) - (r : ℚ))| = 0 := by
    push_cast; ring_nf; exact abs_zero
  simp [e3]

/-- Witness for C5 at a concrete input. -/
theorem c5_hex_round_trip_witness :
    (0 : ℚ) < 40 ∧ cartesian_to_hex (hex_to_cartesian 2 (-3) 40) 40 = (2, -3) :=
  ⟨by norm_num, c5_hex_round_trip 2 (-3) 40 (by norm_num)⟩

/-- Overwriting a key and then deleting it is the same as deleting it. -/
theorem assocErase_assocUpsert {α β : Type} [DecidableEq α] (k : α) (v : β)
    (l : List (α × β)) :
    assocErase k (assocUpsert k v l) = assocErase k l := by
  induction l with
  | nil => simp [assocUpsert, assocErase]
  | cons p rest ih =>
      by_cases hpk : p.1 = k
      · obtain ⟨k', v'⟩ := p
        simp only at hpk
        simp [assocUpsert, assocErase, hpk]
      · obtain ⟨k', v'⟩ := p
        simp only at hpk
        simp [assocUpsert, assocErase, hpk, ih]

/-- C1 (failing input for the claim): with the attacker saved in the
snapshot at the origin and a second entity within range, the nearest-scan
of `find_targets_in_range` selects the attacker itself (distance 0), the
result is then filtered to the empty list, although `unit_2` is a
distinct entity of the snapshot within the attack range 10. The repo test
`test_find_targets_in_range` expects the nearest other entity instead. -/
theorem c1_find_targets_self_occlusion :
    CombatSystem.find_targets_in_range bugState "unit_1" 10 = .ok [] ∧
    bugState.cs.get_entity_position "unit_2" = some (1, 1, 0) ∧
    bugState.snapshot.1 =
      [⟨"unit_1", 0, 0, 0⟩, ⟨"unit_2", 1, 1, 0⟩] ∧
    sqDist (0, 0, 0) (1, 1, 0) ≤ 10 ^ 2 ∧
    ("unit_2" : String) ≠ "unit_1" := by
  refine ⟨by with_unfolding_all decide, by with_unfolding_all decide,
    by with_unfolding_all decide, by norm_num [sqDist], by decide⟩

/-- C2: with both combat records present, the attacker not stunned and
the defender present in the registry, `resolve_combat` deals
`max(1, attack_power - defense * 0.5)` damage; when the defender survives
the call returns false and only its health (reduced by exactly the
damage) changes; when the damage is fatal the defender is removed from
the registry, its combat row is deleted, the registry is persisted and
the call returns true. -/
theorem c2_resolve_combat_spec (s : CombatState) (attacker_id defender_id : EntityID)
    (aRec dRec : CombatRecord) (dpos : Coord3)
    (ha : assocFind attacker_id s.combat = some aRec)
    (hd : assocFind defender_id s.combat = some dRec)
    (hstun : (assocFind "stunned" aRec.status_effects).getD 0 ≤ 0)
    (hpos : assocFind defender_id s.cs.entityPositions = some dpos) :
    (0 < max 0 (dRec.health - max 1 (aRec.attack_power - dRec.defense * 0.5)) →
      CombatSystem.resolve_combat s attacker_id defender_id =
        .ok (false,
          { s with
              combat :=
                assocUpsert defender_id
                  ({ dRec with
                      health :=
                        dRec.health -
                          max 1 (aRec.attack_power - dRec.defense * 0.5) })
                  s.combat })) ∧
    (max 0 (dRec.health - max 1 (aRec.attack_power - dRec.defense * 0.5)) ≤ 0 →
      CombatSystem.resolve_combat s attacker_id defender_id =
        .ok (true,
          { cs :=
              { s.cs with entityPositions := assocErase defender_id s.cs.entityPositions },
            combat := assocErase defender_id s.combat,
            snapshot :=
              save_coordinate_system
                { s.cs with entityPositions := assocErase defender_id s.cs.entityPositions } })) := by
  have hstun' : ¬ 0 < (assocFind "stunned" aRec.status_effects).getD 0 :=
    not_lt.mpr hstun
  have hupdate : CombatSystem.update_combat_attributes s defender_id
      (some (max 0 (dRec.health - max 1 (aRec.attack_power - dRec.defense * 0.5))))
      none none none =
      .ok { s with
              combat :=
                assocUpsert defender_id
                  ({ dRec with
                      health :=
                        max 0 (dRec.health -
                          max 1 (aRec.attack_power - dRec.defense * 0.5)) })
                  s.combat } := by
    simp only [CombatSystem.update_combat_attributes,
      CoordinateSystem.get_entity_position, hpos, Option.isNone_some,
      Bool.false_eq_true, if_false, hd, Option.getD_some, Option.getD_none]
  constructor
  · intro hlive
    have hmax : max 0 (dRec.health - max 1 (aRec.attack_power - dRec.defense * 0.5)) =
        dRec.health - max 1 (aRec.attack_power - dRec.defense * 0.5) := by
      rcases max_cases 0 (dRec.health - max 1 (aRec.attack_power - dRec.defense * 0.5)) with
        ⟨h1, h2⟩ | ⟨h1, h2⟩
      · rw [h1] at hlive; exact absurd hlive (lt_irrefl 0)
      · exact h1
    simp only [CombatSystem.resolve_combat, ha, hd, if_neg hstun', hupdate,
      if_neg (not_le.mpr hlive)]
    rw [hmax]
  · intro hdead
    simp only [CombatSystem.resolve_combat, ha, hd, if_neg hstun', hupdate,
      if_pos hdead, CoordinateSystem.remove_entity, hpos]
    rw [assocErase_assocUpsert]

/-- Witness for C2 at the concrete instance of the spec: attack 20 versus
defense 10 and health 100 gives damage 15, health 85 and result false. -/
theorem c2_resolve_combat_spec_witness :
    max (1 : ℚ) (20 - 10 * 0.5) = 15 ∧
    CombatSystem.resolve_combat duelState "unit_1" "unit_2" =
      .ok (false,
        { duelState with
            combat :=
              assocUpsert "unit_2" (⟨85, 20, 10, []⟩ : CombatRecord)
                duelState.combat }) := by
  constructor
  · norm_num
  · have h := (c2_resolve_combat_spec duelState "unit_1" "unit_2"
      ⟨100, 20, 10, []⟩ ⟨100, 20, 10, []⟩ (1, 0, 0) rfl rfl (by decide) rfl).1
      (by norm_num)
    convert h using 3
    norm_num

/-- C8: a stunned attacker (remaining duration positive) makes
`resolve_combat` return false with the entire combat state unchanged. -/
theorem c8_stunned_attacker_noop (s : CombatState) (attacker_id defender_id : EntityID)
    (aRec dRec : CombatRecord)
    (ha : assocFind attacker_id s.combat = some aRec)
    (hd : assocFind defender_id s.combat = some dRec)
    (hstun : 0 < (assocFind "stunned" aRec.status_effects).getD 0) :
    CombatSystem.resolve_combat s attacker_id defender_id = .ok (false, s) := by
  simp only [CombatSystem.resolve_combat, ha, hd, if_pos hstun]

/-- Witness for C8 at a concrete stunned attacker. -/
theorem c8_stunned_attacker_noop_witness :
    0 < (assocFind "stunned"
          ((⟨100, 20, 10, [("stunned", 2)]⟩ : CombatRecord).status_effects)).getD 0 ∧
    CombatSystem.resolve_combat stunnedState "unit_1" "unit_2" = .ok (false, stunnedState) :=
  ⟨by decide,
   c8_stunned_attacker_noop stunnedState "unit_1" "unit_2"
     ⟨100, 20, 10, [("stunned", 2)]⟩ ⟨100, 20, 10, []⟩ rfl rfl (by decide)⟩

/-- C9: an entity id without a combat row makes `update_status_effects`
return silently with the state untouched. -/
theorem c9_update_status_effects_missing_record (s : CombatState)
    (entity_id : EntityID) (h : assocFind entity_id s.combat = none) :
    CombatSystem.update_status_effects s entity_id = .ok s := by
  simp only [CombatSystem.update_status_effects, h]

/-- Witness for C9 on an id absent from the combat table (and from the
registry). -/
theorem c9_update_status_effects_missing_record_witness :
    assocFind "ghost" bugState.combat = none ∧
    CombatSystem.update_status_effects bugState "ghost" = .ok bugState :=
  ⟨rfl, c9_update_status_effects_missing_record bugState "ghost" rfl⟩

/-- A character of the second argument of a successful `beginsWith` test
occurs in the first argument. -/
theorem beginsWith_mem (p : List Char) :
    ∀ s : List Char, beginsWith s p = true → ∀ c ∈ p, c ∈ s := by
  induction p with
  | nil => intro s _ c hc; cases hc
  | cons q ps ih =>
      intro s hb c hc
      cases s with
      | nil => cases hb
      | cons a s' =>
          simp only [beginsWith, Bool.and_eq_true, decide_eq_true_eq] at hb
          rcases List.mem_cons.mp hc with hcq | hcp
          · exact List.mem_cons.mpr (Or.inl (hcq.trans hb.1))
          · exact List.mem_cons.mpr (Or.inr (ih s' hb.2 c hcp))

/-- The first underscore-delimited segment contains no underscore. -/
theorem firstSegment_no_underscore (id : String) :
    '_' ∉ (firstSegment id).data := by
  intro hmem
  have := List.mem_takeWhile_imp hmem
  simp at this

/-- C10: a type prefix containing an underscore followed by at least one
character makes `count_entities` return the empty mapping on every entity
table, because every group key (a first underscore-delimited segment, or
an id without underscore) contains no underscore and hence never starts
with such a prefix. -/
theorem c10_count_entities_underscore (tp : String) (ids : List String)
    (h : ∃ u v : List Char, tp.data = u ++ '_' :: v ∧ v ≠ []) :
    count_entities tp ids = [] := by
  obtain ⟨u, v, htp, -⟩ := h
  have hus : '_' ∈ tp.data := by
    rw [htp]; exact List.mem_append_right _ (List.mem_cons_self _ _)
  have hcond : ∀ id : String,
      beginsWith (if '_' ∈ id.data then firstSegment id else id).data tp.data = false := by
    intro id
    by_contra hne
    have hb : beginsWith (if '_' ∈ id.data then firstSegment id else id).data
        tp.data = true := by
      cases hbv : beginsWith (if '_' ∈ id.data then firstSegment id else id).data
        tp.data with
      | false => exact absurd hbv hne
      | true => rfl
    have hmem := beginsWith_mem tp.data _ hb '_' hus
    by_cases hid : '_' ∈ id.data
    · rw [if_pos hid] at hmem
      exact firstSegment_no_underscore id hmem
    · rw [if_neg hid] at hmem
      exact hid hmem
  unfold count_entities
  generalize ids.filter _ = matched
  induction matched with
  | nil => rfl
  | cons x rest ih =>
      simp only [List.foldl_cons, hcond x, Bool.false_eq_true, if_false]
      exact ih

/-- Witness for C10 on a concrete prefix and table. -/
theorem c10_count_entities_underscore_witness :
    count_entities "unit_x" ["unit_1", "unitX", "a_b_c"] = [] :=
  c10_count_entities_underscore "unit_x" ["unit_1", "unitX", "a_b_c"]
    ⟨['u', 'n', 'i', 't'], ['x'], by decide, by decide⟩

/-- The effect loop kills the entity exactly as soon as it reaches a
poisoned effect while the entity is alive with at most 5 health: the
entity is removed from the registry, the combat row deleted and the
registry persisted, abandoning the rest of the loop. -/
theorem statusFold_kill (s : CombatState) (entity_id : EntityID) (dpos : Coord3)
    (hpos : assocFind entity_id s.cs.entityPositions = some dpos) :
    ∀ (effects : List (String × ℤ)) (health : ℚ) (acc : List (String × ℤ)),
      "poisoned" ∈ effects.map Prod.fst → 0 < health → health ≤ 5 →
      CombatSystem.statusFold s entity_id effects health acc =
        .ok (.inl
          { cs :=
              { s.cs with
                  entityPositions := assocErase entity_id s.cs.entityPositions },
            combat := assocErase entity_id s.combat,
            snapshot :=
              save_coordinate_system
                { s.cs with
                    entityPositions := assocErase entity_id s.cs.entityPositions } }) := by
  intro effects
  induction effects with
  | nil => intro health acc hmem; cases hmem
  | cons p rest ih =>
      intro health acc hmem h0 h5
      obtain ⟨e, d⟩ := p
      by_cases he : e = "poisoned"
      · subst he
        have hmax : max 0 (health - 5) ≤ 0 := by
          rcases max_cases (0 : ℚ) (health - 5) with ⟨h1, _⟩ | ⟨h1, _⟩
          · rw [h1]
          · rw [h1]; linarith
        simp only [CombatSystem.statusFold, if_pos hmax,
          CoordinateSystem.remove_entity, CoordinateSystem.get_entity_position, hpos]
        have hT : True ∧ 0 < health := ⟨trivial, h0⟩
        rw [if_pos hT]
      · have hcond : ¬ (e = "poisoned" ∧ 0 < health) := fun hc => he hc.1
        have hmem' : "poisoned" ∈ rest.map Prod.fst := by
          rcases List.mem_cons.mp hmem with h1 | h1
          · exact absurd h1.symm (by simpa using he)
          · exact h1
        simp only [CombatSystem.statusFold, if_neg hcond]
        exact ih _ _ hmem' h0 h5

/-- The effect loop survives when no live poisoned tick is fatal: every
duration is decremented, expired effects are dropped, and a live poisoned
effect costs exactly 5 health. -/
theorem statusFold_live (s : CombatState) (entity_id : EntityID) :
    ∀ (effects : List (String × ℤ)) (health : ℚ) (acc : List (String × ℤ)),
      (effects.map Prod.fst).Nodup →
      (∀ k ∈ effects.map Prod.fst, k ∉ acc.map Prod.fst) →
      ("poisoned" ∈ effects.map Prod.fst → 0 < health → 5 < health) →
      CombatSystem.statusFold s entity_id effects health acc =
        .ok (.inr
          ((if "poisoned" ∈ effects.map Prod.fst ∧ 0 < health then health - 5
            else health),
           acc ++ effects.filterMap
             (fun p => if 0 < p.2 - 1 then some (p.1, p.2 - 1) else none))) := by
  intro effects
  induction effects with
  | nil =>
      intro health acc _ _ _
      simp [CombatSystem.statusFold]
  | cons p rest ih =>
      intro health acc hnodup hdisj hsafe
      obtain ⟨e, d⟩ := p
      have hefresh : e ∉ acc.map Prod.fst := hdisj e (by simp)
      have hup : assocUpsert e (d - 1) acc = acc ++ [(e, d - 1)] :=
        assocUpsert_fresh e (d - 1) acc hefresh
      have hnodup' : (rest.map Prod.fst).Nodup := (List.nodup_cons.mp hnodup).2
      have henotin : e ∉ rest.map Prod.fst := (List.nodup_cons.mp hnodup).1
      have hacc' : ∀ k ∈ rest.map Prod.fst,
          k ∉ (if 0 < d - 1 then assocUpsert e (d - 1) acc else acc).map Prod.fst := by
        intro k hk
        have hkacc : k ∉ acc.map Prod.fst := hdisj k (by simp [hk])
        have hke : k ≠ e := fun hkeq => henotin (hkeq ▸ hk)
        by_cases hdur : 0 < d - 1
        · rw [if_pos hdur, hup]
          simp only [List.map_append, List.mem_append, List.map_cons, List.map_nil]
          rintro (hc | hc)
          · exact hkacc hc
          · simp only [List.mem_singleton] at hc
            exact hke hc
        · rw [if_neg hdur]; exact hkacc
      have hfmcons : ((e, d) :: rest).filterMap
            (fun p => if 0 < p.2 - 1 then some (p.1, p.2 - 1) else none) =
          (if 0 < d - 1 then [(e, d - 1)] else []) ++ rest.filterMap
            (fun p => if 0 < p.2 - 1 then some (p.1, p.2 - 1) else none) := by
        by_cases hdur : 0 < d - 1
        · have hf : (if 0 < (e, d).2 - 1 then
                some ((e, d).1, (e, d).2 - 1) else none) = some (e, d - 1) :=
            if_pos hdur
          rw [List.filterMap_cons, hf, if_pos hdur]
          rfl
        · have hf : (if 0 < (e, d).2 - 1 then
                some ((e, d).1, (e, d).2 - 1) else none) = (none : Option (String × ℤ)) :=
            if_neg hdur
          rw [List.filterMap_cons, hf, if_neg hdur, List.nil_append]
      have haccsplit : ∀ tail : List (String × ℤ),
          (if 0 < d - 1 then assocUpsert e (d - 1) acc else acc) ++ tail =
            acc ++ ((if 0 < d - 1 then [(e, d - 1)] else []) ++ tail) := by
        intro tail
        by_cases hdur : 0 < d - 1
        · rw [if_pos hdur, if_pos hdur, hup, List.append_assoc]
        · rw [if_neg hdur, if_neg hdur]; simp
      by_cases hcond : e = "poisoned" ∧ 0 < health
      · obtain ⟨he, h0⟩ := hcond
        subst he
        have h5 : 5 < health :=
          hsafe (List.mem_cons.mpr (Or.inl rfl)) h0
        have hmax : max 0 (health - 5) = health - 5 := by
          rcases max_cases (0 : ℚ) (health - 5) with ⟨h1, h2⟩ | ⟨h1, _⟩
          · linarith
          · exact h1
        have hnot : ¬ max 0 (health - 5) ≤ 0 := by rw [hmax]; intro hc; linarith
        simp only [CombatSystem.statusFold]
        have hT : True ∧ 0 < health := ⟨trivial, h0⟩
        rw [if_pos hT, if_neg hnot, hmax]
        rw [ih (health - 5) _ hnodup' hacc'
          (fun hmem _ => absurd hmem henotin)]
        have hcrest : ¬ ("poisoned" ∈ rest.map Prod.fst ∧ 0 < health - 5) :=
          fun hc => henotin hc.1
        have hcfull : "poisoned" ∈ (("poisoned", d) :: rest).map Prod.fst ∧
            0 < health := ⟨List.mem_cons.mpr (Or.inl rfl), h0⟩
        rw [if_neg hcrest, if_pos hcfull, hfmcons, haccsplit]
      · simp only [CombatSystem.statusFold]
        rw [if_neg hcond]
        rw [ih health _ hnodup' hacc'
          (fun hmem h0 => hsafe (List.mem_cons.mpr (Or.inr hmem)) h0)]
        have hmemiff : ("poisoned" ∈ ((e, d) :: rest).map Prod.fst ∧ 0 < health) ↔
            ("poisoned" ∈ rest.map Prod.fst ∧ 0 < health) := by
          constructor
          · rintro ⟨hmem, h0⟩
            rcases List.mem_cons.mp hmem with h1 | h1
            · exact absurd ⟨h1.symm, h0⟩ hcond
            · exact ⟨h1, h0⟩
          · rintro ⟨hmem, h0⟩
            exact ⟨List.mem_cons.mpr (Or.inr hmem), h0⟩
        rw [hfmcons, haccsplit]
        by_cases hrest : "poisoned" ∈ rest.map Prod.fst ∧ 0 < health
        · rw [if_pos hrest, if_pos (hmemiff.mpr hrest)]
        · rw [if_neg hrest, if_neg (fun hc => hrest (hmemiff.mp hc))]

/-- C3: for an entity with a combat row present in the registry (with
effect names unique, as a Python dict guarantees), one
`update_status_effects` tick decrements every duration, drops the
durations that reach zero, and lets a live poisoned effect deal exactly
5.0 damage; if that damage brings health to 0 the entity is removed from
the registry, its combat row is deleted, the registry is persisted and
the remaining effect updates are abandoned; otherwise the surviving
health and pruned effects are written back. -/
theorem c3_update_status_effects_spec (s : CombatState) (entity_id : EntityID)
    (attrs : CombatRecord) (dpos : Coord3)
    (hfind : assocFind entity_id s.combat = some attrs)
    (hnodup : (attrs.status_effects.map Prod.fst).Nodup)
    (hpos : assocFind entity_id s.cs.entityPositions = some dpos) :
    (("poisoned" ∈ attrs.status_effects.map Prod.fst ∧
        0 < attrs.health ∧ attrs.health ≤ 5) →
      CombatSystem.update_status_effects s entity_id =
        .ok { cs :=
                { s.cs with
                    entityPositions := assocErase entity_id s.cs.entityPositions },
              combat := assocErase entity_id s.combat,
              snapshot :=
                save_coordinate_system
                  { s.cs with
                      entityPositions := assocErase entity_id s.cs.entityPositions } }) ∧
    (¬ ("poisoned" ∈ attrs.status_effects.map Prod.fst ∧
        0 < attrs.health ∧ attrs.health ≤ 5) →
      CombatSystem.update_status_effects s entity_id =
        .ok { s with
                combat :=
                  assocUpsert entity_id
                    ({ attrs with
                        health :=
                          if "poisoned" ∈ attrs.status_effects.map Prod.fst ∧
                              0 < attrs.health then attrs.health - 5
                          else attrs.health,
                        status_effects :=
                          attrs.status_effects.filterMap
                            (fun p =>
                              if 0 < p.2 - 1 then some (p.1, p.2 - 1) else none) })
                    s.combat }) := by
  constructor
  · rintro ⟨hmem, h0, h5⟩
    simp only [CombatSystem.update_status_effects, hfind]
    rw [statusFold_kill s entity_id dpos hpos attrs.status_effects attrs.health []
      hmem h0 h5]
  · intro hnkill
    have hsafe : "poisoned" ∈ attrs.status_effects.map Prod.fst →
        0 < attrs.health → 5 < attrs.health := by
      intro hmem h0
      by_contra hc
      exact hnkill ⟨hmem, h0, by linarith⟩
    simp only [CombatSystem.update_status_effects, hfind]
    rw [statusFold_live s entity_id attrs.status_effects attrs.health []
      hnodup (by simp) hsafe]
    simp only [List.nil_append, CombatSystem.update_combat_attributes,
      CoordinateSystem.get_entity_position, hpos, Option.isNone_some,
      Bool.false_eq_true, if_false, hfind, Option.getD_some, Option.getD_none]

/-- Membership in a sorted insertion. -/
theorem mem_insertEntry (x a : OpenEntry) (l : List OpenEntry) :
    a ∈ insertEntry x l ↔ a = x ∨ a ∈ l := by
  induction l with
  | nil => simp [insertEntry]
  | cons y ys ih =>
      simp only [insertEntry]
      by_cases h : entryLE x y
      · rw [if_pos h]
        simp [List.mem_cons]
      · rw [if_neg h]
        simp only [List.mem_cons, ih]
        tauto

/-- Sorting the open list preserves its members. -/
theorem mem_sortEntries (a : OpenEntry) (l : List OpenEntry) :
    a ∈ sortEntries l ↔ a ∈ l := by
  induction l with
  | nil => simp [sortEntries]
  | cons x xs ih => simp [sortEntries, mem_insertEntry, ih]

/-- Every entry of the open list produced by the neighbor-relaxation fold
was already in the open list or is one of the processed neighbors. -/
theorem expandNeighbors_open_mem (cs : CoordinateSystem) (size : ℚ)
    (goal current : HexPos) :
    ∀ (neighbors : List HexPos) st st',
      expandNeighbors cs size goal current neighbors st = .ok st' →
      ∀ e ∈ st'.1, e ∈ st.1 ∨ e.2 ∈ neighbors := by
  intro neighbors
  induction neighbors with
  | nil =>
      intro st st' h e he
      simp only [expandNeighbors] at h
      injection h with h'
      subst h'
      exact Or.inl he
  | cons n rest ih =>
      intro st st' h e he
      obtain ⟨os, cf, gs, fs⟩ := st
      simp only [expandNeighbors] at h
      split at h
      · rcases ih _ _ h e he with hm | hm
        · exact Or.inl hm
        · exact Or.inr (List.mem_cons_of_mem _ hm)
      · split at h
        · cases h
        · split at h
          · rcases ih _ _ h e he with hm | hm
            · rw [mem_sortEntries] at hm
              rcases List.mem_append.mp hm with hm1 | hm1
              · exact Or.inl hm1
              · rw [List.mem_singleton] at hm1
                subst hm1
                exact Or.inr (List.mem_cons_self _ _)
            · exact Or.inr (List.mem_cons_of_mem _ hm)
          · rcases ih _ _ h e he with hm | hm
            · exact Or.inl hm
            · exact Or.inr (List.mem_cons_of_mem _ hm)

/-- Soundness of the embedded A* loop: when no node reachable from the
start through registered neighbors passes the goal test, no run of the
loop (with any fuel) returns a non-empty path; an exhausted open list
returns the empty path. -/
theorem aStarLoop_sound (cs : CoordinateSystem) (size : ℚ) (goal start : HexPos)
    (hUnreach : ¬ ∃ x, Relation.ReflTransGen (NeighborStep cs size) start x ∧
        hex_distance x goal size < 1) :
    ∀ (fuel : ℕ) (open_set : List OpenEntry) (came_from : List (HexPos × HexPos))
      (g_score f_score : List (HexPos × ℚ)),
      (∀ e ∈ open_set, Relation.ReflTransGen (NeighborStep cs size) start e.2) →
      ∀ p, aStarLoop cs size goal start fuel open_set came_from g_score f_score =
        .ok (some p) → p = [] := by
  intro fuel
  induction fuel with
  | zero =>
      intro os cf gs fs _ p h
      simp only [aStarLoop] at h
      injection h with h'
      cases h'
  | succ fuel ih =>
      intro os cf gs fs hreach p h
      cases os with
      | nil =>
          simp only [aStarLoop] at h
          injection h with h'
          injection h' with h''
          exact h''.symm
      | cons entry rest =>
          obtain ⟨f, current⟩ := entry
          simp only [aStarLoop] at h
          by_cases hgoal : hex_distance current goal size < 1
          · exact absurd
              ⟨current, hreach (f, current) (List.mem_cons_self _ _), hgoal⟩
              hUnreach
          · rw [if_neg hgoal] at h
            cases hexp : expandNeighbors cs size goal current
                (get_neighbors current cs size) (rest, cf, gs, fs) with
            | error e => rw [hexp] at h; cases h
            | ok st' =>
                rw [hexp] at h
                obtain ⟨os', cf', gs', fs'⟩ := st'
                refine ih os' cf' gs' fs' ?_ p h
                intro e he
                rcases expandNeighbors_open_mem cs size goal current _ _ _ hexp
                    e he with hm | hm
                · exact hreach e (List.mem_cons_of_mem _ hm)
                · exact Relation.ReflTransGen.tail
                    (hreach (f, current) (List.mem_cons_self _ _)) hm

/-- On the strip map no node reachable from the center of (0,0) lies in
the cell of the center of (0,5): the reachable set is exactly the four
strip centers, all at hex distance 5 from that goal. -/
theorem stripMap_far_goal_unreachable :
    ¬ ∃ x, Relation.ReflTransGen (NeighborStep stripMap Config.HEX_SIZE)
        (hex_to_cartesian 0 0 Config.HEX_SIZE) x ∧
      hex_distance x (hex_to_cartesian 0 5 Config.HEX_SIZE) Config.HEX_SIZE < 1 := by
  rintro ⟨x, hreach, hgoal⟩
  have hS : ∀ y, Relation.ReflTransGen (NeighborStep stripMap Config.HEX_SIZE)
      (hex_to_cartesian 0 0 Config.HEX_SIZE) y →
      y = hex_to_cartesian 0 0 Config.HEX_SIZE ∨
      y = hex_to_cartesian 1 0 Config.HEX_SIZE ∨
      y = hex_to_cartesian 2 0 Config.HEX_SIZE ∨
      y = hex_to_cartesian 3 0 Config.HEX_SIZE := by
    intro y hy
    induction hy with
    | refl => exact Or.inl rfl
    | tail _ hstep ih =>
        rcases ih with rfl | rfl | rfl | rfl
        · have hn : get_neighbors (hex_to_cartesian 0 0 Config.HEX_SIZE)
              stripMap Config.HEX_SIZE = [hex_to_cartesian 1 0 Config.HEX_SIZE] := by
            with_unfolding_all decide
          rw [NeighborStep, hn, List.mem_singleton] at hstep
          exact Or.inr (Or.inl hstep)
        · have hn : get_neighbors (hex_to_cartesian 1 0 Config.HEX_SIZE)
              stripMap Config.HEX_SIZE =
              [hex_to_cartesian 2 0 Config.HEX_SIZE,
               hex_to_cartesian 0 0 Config.HEX_SIZE] := by
            with_unfolding_all decide
          rw [NeighborStep, hn] at hstep
          rcases List.mem_cons.mp hstep with h1 | h1
          · exact Or.inr (Or.inr (Or.inl h1))
          · rw [List.mem_singleton] at h1
            exact Or.inl h1
        · have hn : get_neighbors (hex_to_cartesian 2 0 Config.HEX_SIZE)
              stripMap Config.HEX_SIZE =
              [hex_to_cartesian 3 0 Config.HEX_SIZE,
               hex_to_cartesian 1 0 Config.HEX_SIZE] := by
            with_unfolding_all decide
          rw [NeighborStep, hn] at hstep
          rcases List.mem_cons.mp hstep with h1 | h1
          · exact Or.inr (Or.inr (Or.inr h1))
          · rw [List.mem_singleton] at h1
            exact Or.inr (Or.inl h1)
        · have hn : get_neighbors (hex_to_cartesian 3 0 Config.HEX_SIZE)
              stripMap Config.HEX_SIZE =
              [hex_to_cartesian 2 0 Config.HEX_SIZE] := by
            with_unfolding_all decide
          rw [NeighborStep, hn, List.mem_singleton] at hstep
          exact Or.inr (Or.inr (Or.inl hstep))
  rcases hS x hreach with rfl | rfl | rfl | rfl <;>
    revert hgoal
  · with_unfolding_all decide
  · with_unfolding_all decide
  · with_unfolding_all decide
  · with_unfolding_all decide

/-- C4: on the strip map of plain cells (0,0) to (3,0), `a_star` from the
center of (0,0) to the center of (3,0) returns the four cell centers in
order, with accumulated step cost 3; a concrete unreachable goal on the
same map terminates with the empty path; and in general, for every map,
start, goal and fuel, when the goal cell is unreachable through
registered neighboring hexes the search never produces a non-empty path
(it drains the open list and returns the empty path, or runs out of
fuel). -/
theorem c4_a_star_spec :
    (a_star 10 (hex_to_cartesian 0 0 Config.HEX_SIZE)
        (hex_to_cartesian 3 0 Config.HEX_SIZE) stripMap Config.HEX_SIZE =
      .ok (some
        [hex_to_cartesian 0 0 Config.HEX_SIZE, hex_to_cartesian 1 0 Config.HEX_SIZE,
         hex_to_cartesian 2 0 Config.HEX_SIZE, hex_to_cartesian 3 0 Config.HEX_SIZE]) ∧
     pathCost stripMap Config.HEX_SIZE
        [hex_to_cartesian 0 0 Config.HEX_SIZE, hex_to_cartesian 1 0 Config.HEX_SIZE,
         hex_to_cartesian 2 0 Config.HEX_SIZE, hex_to_cartesian 3 0 Config.HEX_SIZE] =
       some 3 ∧
     a_star 7 (hex_to_cartesian 0 0 Config.HEX_SIZE)
        (hex_to_cartesian 0 5 Config.HEX_SIZE) stripMap Config.HEX_SIZE =
       .ok (some [])) ∧
    (∀ (cs : CoordinateSystem) (size : ℚ) (start goal : HexPos),
      (¬ ∃ x, Relation.ReflTransGen (NeighborStep cs size) start x ∧
          hex_distance x goal size < 1) →
      ∀ fuel : ℕ, isNonemptyPath (a_star fuel start goal cs size) = false) := by
  constructor
  · refine ⟨?_, ?_, ?_⟩
    · with_unfolding_all decide
    · with_unfolding_all decide
    · with_unfolding_all decide
  · intro cs size start goal hUnreach fuel
    cases hres : a_star fuel start goal cs size with
    | error e => rfl
    | ok o =>
        cases o with
        | none => rfl
        | some p =>
            cases p with
            | nil => rfl
            | cons x xs =>
                exfalso
                have hreach : ∀ e ∈ ([((0 : ℚ), start)] : List OpenEntry),
                    Relation.ReflTransGen (NeighborStep cs size) start e.2 := by
                  intro e he
                  rw [List.mem_singleton] at he
                  subst he
                  exact Relation.ReflTransGen.refl
                have := aStarLoop_sound cs size goal start hUnreach fuel
                  [(0, start)] [] [(start, 0)]
                  [(start, (hex_distance start goal size : ℚ))] hreach (x :: xs) hres
                cases this

/-- Witness for C4: the general unreachable clause applied to the strip
map with the goal at the center of (0,5), unreachable from the center of
(0,0). -/
theorem c4_a_star_spec_witness :
    (¬ ∃ x, Relation.ReflTransGen (NeighborStep stripMap Config.HEX_SIZE)
        (hex_to_cartesian 0 0 Config.HEX_SIZE) x ∧
      hex_distance x (hex_to_cartesian 0 5 Config.HEX_SIZE) Config.HEX_SIZE < 1) ∧
    isNonemptyPath (a_star 7 (hex_to_cartesian 0 0 Config.HEX_SIZE)
      (hex_to_cartesian 0 5 Config.HEX_SIZE) stripMap Config.HEX_SIZE) = false :=
  ⟨stripMap_far_goal_unreachable,
   c4_a_star_spec.2 stripMap Config.HEX_SIZE
     (hex_to_cartesian 0 0 Config.HEX_SIZE) (hex_to_cartesian 0 5 Config.HEX_SIZE)
     stripMap_far_goal_unreachable 7⟩

/-- Witness for C3 at the concrete instance of the spec: health 3 with a
poisoned effect of duration 1 is removed after one tick. -/
theorem c3_update_status_effects_spec_witness :
    assocFind "unit_1" poisonedState.combat =
      some ⟨3, 20, 10, [("poisoned", 1)]⟩ ∧
    CombatSystem.update_status_effects poisonedState "unit_1" =
      .ok { cs := ⟨[], []⟩,
            combat := [],
            snapshot := save_coordinate_system ⟨[], []⟩ } := by
  refine ⟨rfl, ?_⟩
  have h := (c3_update_status_effects_spec poisonedState "unit_1"
    ⟨3, 20, 10, [("poisoned", 1)]⟩ (0, 0, 0) rfl (by decide) rfl).1
    ⟨by decide, by norm_num, by norm_num⟩
  exact h

end AtomicGameEngine
